import Mathlib

/-!
Shallow embedding of the observability todo service: the Express route
handlers and in-memory store, the request-instrumentation middleware, and
the structured logger, together with theorems settling the specification
claims about them.  JavaScript strings are modelled as Lean `String`
(lists of characters); JavaScript timestamps as `Nat` (epoch
milliseconds); fractional metric values as `Rat`.
-/

namespace ObsTodo

/-! ## JavaScript string primitives

The handlers use `String.prototype.trim`, `String.prototype.toLowerCase`
and `String.prototype.includes`; they are modelled here directly on the
character list so that every concrete instance reduces in the kernel.
-/

/-- Drops leading whitespace characters, modelling one side of
JavaScript `trim`. -/
def dropWS (l : List Char) : List Char := l.dropWhile fun c => c.isWhitespace

/-- Models JavaScript `String.prototype.trim`: strips whitespace from
both ends. -/
def jsTrim (s : String) : String := String.mk (((dropWS s.data).reverse |> dropWS).reverse)

/-- Lowers one ASCII letter, modelling `toLowerCase` on the ASCII range. -/
def lowerChar (c : Char) : Char :=
  if 'A' ≤ c ∧ c ≤ 'Z' then Char.ofNat (c.toNat + 32) else c

/-- Models JavaScript `String.prototype.toLowerCase` (ASCII range). -/
def jsToLower (s : String) : String := String.mk (s.data.map lowerChar)

/-- Does `needle` occur as a contiguous subsequence of `hay`?  Models
JavaScript `String.prototype.includes`. -/
def containsSeq (needle : List Char) : List Char → Bool
  | [] => needle.isEmpty
  | c :: cs => needle.isPrefixOf (c :: cs) || containsSeq needle cs

/-- Models `hay.includes(needle)` on JavaScript strings. -/
def jsIncludes (hay needle : String) : Bool := containsSeq needle.data hay.data

/-! ## Data model -/

/-- Value stored in a todo's `completed` field.  The JavaScript object
field is dynamically typed: the code stores the numbers 0/1 there while
the spec's round-trip property speaks of the booleans, so the model keeps
both alternatives representable. -/
inductive CompletedVal where
  | cbool (b : Bool)
  | cint (n : Int)
  deriving DecidableEq, Repr

/-- One todo entry, mirroring the object built by the POST handler
(part_004 lines 650-661).  `description`, `dueDate` and `completedAt`
are `null`-able, modelled by `Option`; `createdAt`/`updatedAt` are the
request timestamps. -/
structure Todo where
  id : Nat
  task : String
  description : Option String
  category : String
  priority : String
  dueDate : Option String
  completed : CompletedVal
  completedAt : Option Nat
  createdAt : Nat
  updatedAt : Nat
  deriving DecidableEq, Repr

/-- The module-level mutable state of part_004: the `todos` array, the
`nextTodoId` counter (line 139-141) and the three business counters
`todo_created_total` (labelled by priority), `todo_completed_total`
(labelled by priority) and `todo_deleted_total` (no labels). -/
structure ServerState where
  todos : List Todo
  nextTodoId : Nat
  todoCreatedTotal : String → Nat
  todoCompletedTotal : String → Nat
  todoDeletedTotal : Nat

/-- The state at process start: empty store, next id 1, all counters 0. -/
def initialState : ServerState :=
  { todos := [], nextTodoId := 1,
    todoCreatedTotal := fun _ => 0, todoCompletedTotal := fun _ => 0,
    todoDeletedTotal := 0 }

/-- Pointwise increment of a labelled counter at one label value. -/
def bump (f : String → Nat) (k : String) : String → Nat :=
  fun x => if x = k then f x + 1 else f x

/-- The fixed category enum (part_004 line 142 and the `isIn` list at
line 627). -/
def todoCategories : List String := ["work", "personal", "shopping", "health", "other"]

/-- The fixed priority enum (part_004 line 143 and the `isIn` list at
line 631). -/
def todoPriorities : List String := ["low", "medium", "high"]

/-- Models `todo.priority || "medium"`: the label used by the business
counters falls back to "medium" when the priority field is falsy. -/
def priorityLabel (p : String) : String := if p = "" then "medium" else p

/-! ## XSS sanitizer model -/

/-- Character-level body of the sanitizer model: the markup characters
are HTML-escaped, all other characters pass through. -/
def xssChars : List Char → List Char
  | [] => []
  | c :: cs =>
    (if c = '<' then "&lt;".data else if c = '>' then "&gt;".data else [c]) ++ xssChars cs

/-- Models the external `xss` npm sanitizer as used by the POST handler:
markup outside the whitelist is HTML-escaped and plain text passes
through unchanged.  The model escapes the tag delimiters and does not
reproduce the library's default tag whitelist, which the application
never relies on. -/
def xss (s : String) : String := String.mk (xssChars s.data)

/-- A string containing no HTML tag delimiter, hence a fixed point of
the modelled sanitizer. -/
def noMarkup (s : String) : Bool := s.data.all fun c => c != '<' && c != '>'

/-! ## Date validation model -/

/-- Gregorian leap-year test. -/
def isLeapYear (y : Nat) : Bool := (y % 4 = 0 && y % 100 ≠ 0) || y % 400 = 0

/-- Days in a month of the Gregorian calendar. -/
def daysInMonth (y m : Nat) : Nat :=
  if m = 2 then (if isLeapYear y then 29 else 28)
  else if m = 4 ∨ m = 6 ∨ m = 9 ∨ m = 11 then 30
  else 31

/-- Numeric value of a decimal digit character. -/
def digitVal (c : Char) : Nat := c.toNat - 48

/-- Reads a `YYYY-MM-DD` character pattern. -/
def ymdOf : List Char → Option (Nat × Nat × Nat)
  | [a, b, c, d, h1, e, f, h2, g, h] =>
    if h1 = '-' ∧ h2 = '-' ∧ a.isDigit ∧ b.isDigit ∧ c.isDigit ∧ d.isDigit ∧
        e.isDigit ∧ f.isDigit ∧ g.isDigit ∧ h.isDigit then
      some (digitVal a * 1000 + digitVal b * 100 + digitVal c * 10 + digitVal d,
            digitVal e * 10 + digitVal f, digitVal g * 10 + digitVal h)
    else none
  | _ => none

/-- Models the external validator library's `isISO8601` check as used by
the `dueDate` chain, restricted to the calendar-date form `YYYY-MM-DD`
that the application's frontend submits (date-time and timezone-offset
forms are not modelled); calendar validity is checked so that the
JavaScript `Date` parse of an accepted string never fails. -/
def isISO8601Date (s : String) : Bool :=
  match ymdOf s.data with
  | some (y, m, d) => 1 ≤ m && m ≤ 12 && 1 ≤ d && d ≤ daysInMonth y m
  | none => false

/-- Models `getDateOnly` (part_004 lines 173-178) composed with the
`toDate` sanitizer of the validation chain: a falsy or unparseable value
stores `null`, and for the calendar-date strings accepted by the
modelled ISO-8601 check the stored date-only string is the input
itself. -/
def getDateOnly : Option String → Option String
  | none => none
  | some s => if isISO8601Date s then some s else none

/-! ## POST /api/todos -/

/-- One element of the `errors.array()` payload of a 400 response:
the offending field and its message. -/
structure FieldError where
  path : String
  msg : String
  deriving DecidableEq, Repr

/-- The request body of `POST /api/todos`; absent (or `null`) optional
fields are `none`. -/
structure PostBody where
  task : String
  description : Option String
  category : String
  priority : Option String
  dueDate : Option String
  deriving DecidableEq, Repr

/-- The `.trim()` sanitizers of the validation chains (part_004 lines
614-625): they mutate `req.body`, so the handler sees the trimmed
values. -/
def sanitizePostBody (b : PostBody) : PostBody :=
  { b with task := jsTrim b.task, description := b.description.map jsTrim,
           category := jsTrim b.category }

/-- Validation chain for `task` (lines 614-618): `.notEmpty()` fails
with the library's default message and `.isLength({max:500})` with the
`.withMessage` text, which in express-validator applies to the
immediately preceding validator only. -/
def validateTask (task : String) : List FieldError :=
  (if task = "" then [⟨"task", "Invalid value"⟩] else []) ++
  (if 500 < task.length then
    [⟨"task", "Task is required and must be less than 500 characters"⟩] else [])

/-- Validation chain for `description` (lines 619-623): skipped when the
field is absent. -/
def validateDescription : Option String → List FieldError
  | none => []
  | some d =>
    if 2000 < d.length then
      [⟨"description", "Description must be less than 2000 characters"⟩] else []

/-- Validation chain for `category` (lines 624-628): `.notEmpty()` with
the default message, then the enum membership check. -/
def validateCategory (c : String) : List FieldError :=
  (if c = "" then [⟨"category", "Invalid value"⟩] else []) ++
  (if c ∈ todoCategories then [] else [⟨"category", "Invalid category"⟩])

/-- Validation chain for `priority` (lines 629-632). -/
def validatePriority : Option String → List FieldError
  | none => []
  | some p =>
    if p ∈ todoPriorities then [] else [⟨"priority", "Invalid priority"⟩]

/-- Validation chain for `dueDate` (lines 633-637). -/
def validateDueDate : Option String → List FieldError
  | none => []
  | some s => if isISO8601Date s then [] else [⟨"dueDate", "Invalid due date"⟩]

/-- All five chains in middleware order; `validationResult(req)` returns
their failures in this order. -/
def validatePostBody (b : PostBody) : List FieldError :=
  validateTask b.task ++ validateDescription b.description ++
  validateCategory b.category ++ validatePriority b.priority ++
  validateDueDate b.dueDate

/-- The entry object built by the POST handler (lines 650-661) from the
sanitized body, with `now` the request timestamp.  JavaScript truthiness
makes `description ? xss(description) : null` store `null` for an empty
string. -/
def mkEntry (nextId : Nat) (now : Nat) (b : PostBody) : Todo :=
  { id := nextId
    task := xss b.task
    description :=
      match b.description with
      | some d => if d = "" then none else some (xss d)
      | none => none
    category := xss b.category
    priority := b.priority.getD "medium"
    dueDate := getDateOnly b.dueDate
    completed := .cint 0
    completedAt := none
    createdAt := now
    updatedAt := now }

/-- Response of `POST /api/todos`: `res.json({success:true, entry})` on
the success path, status 400 with `{success:false, errors}` on
validation failure. -/
inductive PostResponse where
  | success (entry : Todo)
  | invalid (errs : List FieldError)
  deriving DecidableEq, Repr

/-- HTTP status of a POST response (`res.json` defaults to 200). -/
def postStatus : PostResponse → Nat
  | .success _ => 200
  | .invalid _ => 400

/-- The `POST /api/todos` handler (lines 611-679): validates, builds the
entry, appends it to the store, advances `nextTodoId` and bumps the
created counter at `priority || "medium"`. -/
def postTodos (st : ServerState) (now : Nat) (raw : PostBody) : PostResponse × ServerState :=
  let b := sanitizePostBody raw
  let errs := validatePostBody b
  if errs = [] then
    let entry := mkEntry st.nextTodoId now b
    (.success entry,
      { st with todos := st.todos ++ [entry]
                nextTodoId := st.nextTodoId + 1
                todoCreatedTotal := bump st.todoCreatedTotal (b.priority.getD "medium") })
  else (.invalid errs, st)

/-! ## GET /api/todos -/

/-- Query parameters of `GET /api/todos`; a parameter that was not sent
is `none`, one sent with an empty value is `some ""`. -/
structure TodoQuery where
  search : Option String
  category : Option String
  priority : Option String
  completed : Option String
  deriving Repr

/-- The query with no parameters supplied. -/
def emptyQuery : TodoQuery := ⟨none, none, none, none⟩

/-- The search predicate of lines 576-580: case-insensitive substring
match over task and description (a `null` description reads as ""). -/
def matchesSearch (term : String) (t : Todo) : Bool :=
  jsIncludes (jsToLower t.task) term || jsIncludes (jsToLower (t.description.getD "")) term

/-- The `if (search)` filter stage (lines 574-581); a falsy (absent or
empty) parameter skips the stage. -/
def searchFilter (search : Option String) (ts : List Todo) : List Todo :=
  match search with
  | some s => if s = "" then ts else ts.filter (matchesSearch (jsToLower s))
  | none => ts

/-- The `if (category)` filter stage (lines 582-584). -/
def categoryFilter (category : Option String) (ts : List Todo) : List Todo :=
  match category with
  | some c => if c = "" then ts else ts.filter fun t => t.category == c
  | none => ts

/-- The `if (priority)` filter stage (lines 585-587). -/
def priorityFilter (priority : Option String) (ts : List Todo) : List Todo :=
  match priority with
  | some p => if p = "" then ts else ts.filter fun t => t.priority == p
  | none => ts

/-- The `if (completed !== undefined)` filter stage (lines 588-591): the
query string "true" selects completed items, any other supplied value
selects incomplete ones. -/
def completedFilter (completed : Option String) (ts : List Todo) : List Todo :=
  match completed with
  | some c =>
    ts.filter fun t => decide (t.completed = CompletedVal.cint (if c = "true" then 1 else 0))
  | none => ts

/-- The four filter stages in handler order. -/
def applyFilters (q : TodoQuery) (ts : List Todo) : List Todo :=
  completedFilter q.completed (priorityFilter q.priority (categoryFilter q.category (searchFilter q.search ts)))

/-- Search stage as a predicate. -/
def searchPred (search : Option String) (t : Todo) : Bool :=
  match search with
  | some s => if s = "" then true else matchesSearch (jsToLower s) t
  | none => true

/-- Category stage as a predicate. -/
def categoryPred (category : Option String) (t : Todo) : Bool :=
  match category with
  | some c => if c = "" then true else t.category == c
  | none => true

/-- Priority stage as a predicate. -/
def priorityPred (priority : Option String) (t : Todo) : Bool :=
  match priority with
  | some p => if p = "" then true else t.priority == p
  | none => true

/-- Completion stage as a predicate. -/
def completedPred (completed : Option String) (t : Todo) : Bool :=
  match completed with
  | some c => decide (t.completed = CompletedVal.cint (if c = "true" then 1 else 0))
  | none => true

/-- Conjunction of all supplied filters, the predicate the list endpoint
is claimed to implement. -/
def matchesQuery (q : TodoQuery) (t : Todo) : Bool :=
  ((searchPred q.search t && categoryPred q.category t) && priorityPred q.priority t) &&
    completedPred q.completed t

/-- Stable descending insertion by `createdAt`: an element moves ahead
of strictly older entries only, reproducing the result of the stable
JavaScript `sort` with comparator `(a, b) => b.createdAt - a.createdAt`
of `getAllTodos` (lines 145-149). -/
def insertByCreated (x : Todo) : List Todo → List Todo
  | [] => [x]
  | y :: ys => if y.createdAt ≤ x.createdAt then x :: y :: ys else y :: insertByCreated x ys

/-- Models `getAllTodos` (lines 145-149): the store sorted
newest-created-first. -/
def sortByCreatedDesc : List Todo → List Todo
  | [] => []
  | x :: xs => insertByCreated x (sortByCreatedDesc xs)

/-- The `{active, completed, total}` triple of `getTodoMetrics`
(lines 155-159): items are completed when the field is the number 1. -/
def getTodoMetrics (todos : List Todo) : Nat × Nat × Nat :=
  let completed := (todos.filter fun t => decide (t.completed = CompletedVal.cint 1)).length
  (todos.length - completed, completed, todos.length)

/-- Response body of `GET /api/todos` (lines 599-604). -/
structure TodosListResponse where
  total : Nat
  active : Nat
  completed : Nat
  todos : List Todo
  deriving Repr

/-- The `GET /api/todos` handler (lines 569-609): sorts, applies the
supplied filters in order, and reports the store-wide counts. -/
def getTodos (st : ServerState) (q : TodoQuery) : TodosListResponse :=
  let res := applyFilters q (sortByCreatedDesc st.todos)
  let m := getTodoMetrics st.todos
  { total := m.2.2, active := m.1, completed := m.2.1, todos := res }

/-! ## PUT /api/todos/:id/toggle and DELETE /api/todos/:id -/

/-- Models `getTodoById` (lines 151-153): first store entry with the
given id. -/
def getTodoById (todos : List Todo) (id : Nat) : Option Todo :=
  todos.find? fun t => t.id == id

/-- In-place mutation of the object found by `getTodoById`: the first
entry with the given id is replaced, later duplicates are untouched. -/
def replaceFirstById (id : Nat) (upd : Todo) : List Todo → List Todo
  | [] => []
  | t :: ts => if t.id == id then upd :: ts else t :: replaceFirstById id upd ts

/-- Models `splice(todoIndex, 1)` after `findIndex`: removes the first
entry with the given id. -/
def removeFirstById (id : Nat) : List Todo → List Todo
  | [] => []
  | t :: ts => if t.id == id then ts else t :: removeFirstById id ts

/-- Response of `PUT /api/todos/:id/toggle`: 200 with the mutated todo,
400 on param validation failure, 404 when the id is unknown. -/
inductive ToggleResponse where
  | success (todo : Todo)
  | invalid (errs : List FieldError)
  | notFound
  deriving DecidableEq, Repr

/-- HTTP status of a toggle response. -/
def toggleStatus : ToggleResponse → Nat
  | .success _ => 200
  | .invalid _ => 400
  | .notFound => 404

/-- The mutation the toggle handler applies to the found todo
(lines 701-708): flip 0/1, set or clear the completion timestamp, touch
`updatedAt`. -/
def toggledTodo (t : Todo) (now : Nat) : Todo :=
  if t.completed = CompletedVal.cint 1 then
    { t with completed := CompletedVal.cint 0, completedAt := none, updatedAt := now }
  else
    { t with completed := CompletedVal.cint 1, completedAt := some now, updatedAt := now }

/-- The `PUT /api/todos/:id/toggle` handler (lines 681-724): the
`param("id").isInt({min:1})` check rejects ids below 1 with 400; an
unknown id yields 404; otherwise the first matching todo is mutated in
place and the completed counter is bumped only on the 0 to 1
transition. -/
def toggleTodo (st : ServerState) (now : Nat) (idParam : Int) : ToggleResponse × ServerState :=
  if idParam < 1 then (.invalid [⟨"id", "Invalid todo ID"⟩], st)
  else
    let id := idParam.toNat
    match getTodoById st.todos id with
    | none => (.notFound, st)
    | some todo =>
      let wasCompleted := decide (todo.completed = CompletedVal.cint 1)
      let newCompleted : Int := if wasCompleted then 0 else 1
      let upd := { todo with
        completed := CompletedVal.cint newCompleted
        completedAt := if newCompleted = 0 then none else some now
        updatedAt := now }
      (.success upd,
        { st with
            todos := replaceFirstById id upd st.todos
            todoCompletedTotal :=
              if newCompleted ≠ 0 ∧ wasCompleted = false then
                bump st.todoCompletedTotal (priorityLabel todo.priority)
              else st.todoCompletedTotal })

/-- Response of `DELETE /api/todos/:id`. -/
inductive DeleteResponse where
  | success
  | invalid (errs : List FieldError)
  | notFound
  deriving DecidableEq, Repr

/-- HTTP status of a delete response. -/
def deleteStatus : DeleteResponse → Nat
  | .success => 200
  | .invalid _ => 400
  | .notFound => 404

/-- The `DELETE /api/todos/:id` handler (lines 726-758): the
`param("id").isInt({min:1})` check rejects ids below 1 with 400; an id
absent from the store yields 404 and changes nothing; otherwise the
first matching entry is spliced out and the deleted counter (no labels)
is incremented. -/
def deleteTodo (st : ServerState) (idParam : Int) : DeleteResponse × ServerState :=
  if idParam < 1 then (.invalid [⟨"id", "Invalid todo ID"⟩], st)
  else
    let id := idParam.toNat
    if st.todos.any (fun t => t.id == id) then
      (.success,
        { st with todos := removeFirstById id st.todos
                  todoDeletedTotal := st.todoDeletedTotal + 1 })
    else (.notFound, st)

/-! ## Request instrumentation middleware

Model of the observability middleware (part_004 lines 240-293): labelled
metric families are total functions from label tuples, histograms keep
the multiset of observed values.
-/

/-- Two-element label tuple `(method, route)`. -/
structure Labels2 where
  method : String
  route : String
  deriving DecidableEq, Repr

/-- Three-element label tuple `(method, route, status_code)`. -/
structure Labels3 where
  method : String
  route : String
  status : Nat
  deriving DecidableEq, Repr

/-- The HTTP metric families touched by the middleware. -/
structure HttpMetrics where
  inFlight : Labels2 → Int
  requestsTotal : Labels3 → Nat
  errorsTotal : Labels3 → Nat
  cpuSecondsTotal : Labels3 → Rat
  durationObs : Labels3 → List Rat
  requestSizeObs : Labels2 → List Rat
  responseSizeObs : Labels3 → List Rat

/-- All metric families at zero, as at process start. -/
def zeroMetrics : HttpMetrics :=
  { inFlight := fun _ => 0, requestsTotal := fun _ => 0, errorsTotal := fun _ => 0,
    cpuSecondsTotal := fun _ => 0, durationObs := fun _ => [],
    requestSizeObs := fun _ => [], responseSizeObs := fun _ => [] }

/-- Pointwise increment of a `Labels3`-labelled counter. -/
def bump3 (f : Labels3 → Nat) (k : Labels3) : Labels3 → Nat :=
  fun x => if x = k then f x + 1 else f x

/-- Pointwise addition into a `Labels3`-labelled counter of rationals. -/
def addAt3 (f : Labels3 → Rat) (k : Labels3) (v : Rat) : Labels3 → Rat :=
  fun x => if x = k then f x + v else f x

/-- Records one histogram observation at a `Labels3` tuple. -/
def obsAt3 (f : Labels3 → List Rat) (k : Labels3) (v : Rat) : Labels3 → List Rat :=
  fun x => if x = k then v :: f x else f x

/-- Records one histogram observation at a `Labels2` tuple. -/
def obsAt2 (f : Labels2 → List Rat) (k : Labels2) (v : Rat) : Labels2 → List Rat :=
  fun x => if x = k then v :: f x else f x

/-- Pointwise addition into the in-flight gauge. -/
def gaugeAdd (f : Labels2 → Int) (k : Labels2) (v : Int) : Labels2 → Int :=
  fun x => if x = k then f x + v else f x

/-- The request as the middleware sees it: the raw path, and the matched
route pattern when the framework resolved one (`req.route`). -/
structure ReqInfo where
  method : String
  path : String
  routePattern : Option String
  deriving DecidableEq, Repr

/-- Per-request measurements available to the completion hook: response
status, wall-clock start and end (milliseconds), the `process.cpuUsage`
delta (microseconds), and the parsed content lengths. -/
structure Completion where
  status : Nat
  startMs : Rat
  endMs : Rat
  cpuUserMicros : Rat
  cpuSystemMicros : Rat
  requestSize : Int
  responseSize : Int
  deriving DecidableEq, Repr

/-- Request-arrival half of the middleware (lines 240-257): the in-flight
gauge keyed by `(method, raw path)` is incremented. -/
def middlewareStart (m : HttpMetrics) (r : ReqInfo) : HttpMetrics :=
  { m with inFlight := gaugeAdd m.inFlight ⟨r.method, r.path⟩ 1 }

/-- The `res.on("finish")` completion hook (lines 259-290): decrement the
in-flight gauge at the same `(method, raw path)` key, then record
duration, request count, CPU time, the error counter for statuses at or
above 400, and the size histograms for positive sizes, all labelled by
the matched route pattern when one exists, else the raw path. -/
def onFinish (m : HttpMetrics) (r : ReqInfo) (c : Completion) : HttpMetrics :=
  let duration : Rat := (c.endMs - c.startMs) / 1000
  let cpuTime : Rat := (c.cpuUserMicros + c.cpuSystemMicros) / 1000000
  let route := r.routePattern.getD r.path
  let l3 : Labels3 := ⟨r.method, route, c.status⟩
  let m1 := { m with inFlight := gaugeAdd m.inFlight ⟨r.method, r.path⟩ (-1) }
  let m2 := { m1 with durationObs := obsAt3 m1.durationObs l3 duration }
  let m3 := { m2 with requestsTotal := bump3 m2.requestsTotal l3 }
  let m4 := { m3 with cpuSecondsTotal := addAt3 m3.cpuSecondsTotal l3 cpuTime }
  let m5 := if 400 ≤ c.status then { m4 with errorsTotal := bump3 m4.errorsTotal l3 } else m4
  let m6 := if 0 < c.requestSize then
      { m5 with requestSizeObs := obsAt2 m5.requestSizeObs ⟨r.method, route⟩ (c.requestSize : Rat) }
    else m5
  if 0 < c.responseSize then
    { m6 with responseSizeObs := obsAt3 m6.responseSizeObs l3 (c.responseSize : Rat) }
  else m6

/-- How one request-response cycle can end. -/
inductive Outcome where
  | completedResponse (status : Nat)
  | handlerError
  | clientDisconnect
  deriving DecidableEq, Repr

/-- Models which exit paths emit the Node.js `finish` event on the
response: it fires when the response is fully written, including the 500
response Express sends for a thrown handler error, but a connection
terminated before the response completes emits only `close`, never
`finish`. -/
def finishFires : Outcome → Bool
  | .completedResponse _ => true
  | .handlerError => true
  | .clientDisconnect => false

/-- One whole request through the middleware: the arrival half always
runs; the completion hook runs exactly when the `finish` event fires for
the outcome. -/
def handleRequest (m : HttpMetrics) (r : ReqInfo) (o : Outcome) (c : Completion) : HttpMetrics :=
  let m1 := middlewareStart m r
  if finishFires o then onFinish m1 r c else m1

/-! ## Structured logger

Model of logger.js (part_000): `logInfo`/`logError` attach the active
span's identifiers to the metadata when a span exists and hand the
record to the winston logger, whose `timestamp` and `json` formats add
the timestamp, level and message fields.
-/

/-- Log severities used by the wrappers. -/
inductive LogLevel where
  | info
  | error
  deriving DecidableEq, Repr

/-- The winston level string. -/
def levelName : LogLevel → String
  | .info => "info"
  | .error => "error"

/-- The identifier pair of an active span, as returned by
`trace.getSpan(context.active()).spanContext()`. -/
structure SpanContext where
  traceId : String
  spanId : String
  deriving DecidableEq, Repr

/-- One structured log record: creation timestamp, level, message, and
the metadata fields serialized alongside them. -/
structure LogRecord where
  timestamp : Nat
  level : String
  message : String
  fields : List (String × String)
  deriving DecidableEq, Repr

/-- Lines 17-22 and 27-32 of logger.js: when a span is active its
`trace_id`/`span_id` are added to the metadata, otherwise the metadata
passes through untouched. -/
def withTraceContext (span : Option SpanContext) (meta : List (String × String)) :
    List (String × String) :=
  match span with
  | some s => meta ++ [("trace_id", s.traceId), ("span_id", s.spanId)]
  | none => meta

/-- What a logger call produced. -/
inductive EmitOutcome where
  | delivered (r : LogRecord)
  | errorEvent (r : LogRecord)
  deriving DecidableEq, Repr

/-- Models the winston transport contract: a formatting or emission
failure surfaces as an `error` event on the logger, never as a
synchronous exception to the call site. -/
def loggerEmit (emitFails : Bool) (r : LogRecord) : EmitOutcome :=
  if emitFails then .errorEvent r else .delivered r

/-- Result of calling a log helper: either the call returned normally
with the emission outcome, or it raised an exception to the caller. -/
inductive CallOutcome where
  | returned (e : EmitOutcome)
  | raised (msg : String)
  deriving DecidableEq, Repr

/-- The shared body of `logInfo`/`logError` (part_000 lines 16-34):
build the record with timestamp, level, message and the trace-annotated
metadata, then emit it.  Nothing in the wrapper catches or throws. -/
def logCall (lvl : LogLevel) (now : Nat) (span : Option SpanContext)
    (message : String) (meta : List (String × String)) (emitFails : Bool) : CallOutcome :=
  .returned (loggerEmit emitFails
    { timestamp := now, level := levelName lvl, message := message,
      fields := withTraceContext span meta })

/-- `logInfo` of logger.js. -/
def logInfo (now : Nat) (span : Option SpanContext) (message : String)
    (meta : List (String × String)) (emitFails : Bool) : CallOutcome :=
  logCall .info now span message meta emitFails

/-- `logError` of logger.js. -/
def logError (now : Nat) (span : Option SpanContext) (message : String)
    (meta : List (String × String)) (emitFails : Bool) : CallOutcome :=
  logCall .error now span message meta emitFails

/-! ## Specification-side predicates and concrete inputs -/

/-- The validity condition for a (sanitized) POST body as the spec
states it: non-empty task of at most 500 characters, description of at
most 2000 characters, category in the fixed enum, priority absent or in
the fixed enum, due date absent or an accepted calendar date. -/
def ValidPostBody (b : PostBody) : Prop :=
  b.task ≠ "" ∧ b.task.length ≤ 500 ∧
  (∀ d, b.description = some d → d.length ≤ 2000) ∧
  b.category ∈ todoCategories ∧
  (∀ p, b.priority = some p → p ∈ todoPriorities) ∧
  (∀ s, b.dueDate = some s → isISO8601Date s = true)

instance (b : PostBody) : Decidable (ValidPostBody b) := by
  unfold ValidPostBody
  infer_instance

/-- Well-formed store: every held id is below the next id to assign. -/
def StoreWF (st : ServerState) : Prop := ∀ t ∈ st.todos, t.id < st.nextTodoId

/-- Every stored completion flag is the integer 0 or 1. -/
def CompletedWF (st : ServerState) : Prop :=
  ∀ t ∈ st.todos, t.completed = CompletedVal.cint 0 ∨ t.completed = CompletedVal.cint 1

instance (st : ServerState) : Decidable (StoreWF st) := by
  unfold StoreWF
  infer_instance

instance (st : ServerState) : Decidable (CompletedWF st) := by
  unfold CompletedWF
  infer_instance

/-- A plain valid creation request. -/
def bodyOK : PostBody :=
  { task := "write spec", description := none, category := "work",
    priority := some "high", dueDate := none }

/-- A creation request whose category is empty: it violates both the
non-empty check and the enum check of the category chain. -/
def bodyBadCategory : PostBody :=
  { task := "buy milk", description := none, category := "",
    priority := none, dueDate := none }

/-- A valid creation request carrying an empty description. -/
def bodyEmptyDesc : PostBody :=
  { task := "buy milk", description := some "", category := "work",
    priority := none, dueDate := none }

/-- A GET request to the list endpoint as the middleware sees it. -/
def reqTodos : ReqInfo := ⟨"GET", "/api/todos", some "/api/todos"⟩

/-- Measurements of one sample request. -/
def compSample : Completion :=
  { status := 200, startMs := 1000, endMs := 1025,
    cpuUserMicros := 1200, cpuSystemMicros := 300,
    requestSize := 0, responseSize := 120 }

/-- The one-entry store obtained by creating `bodyOK` in a fresh process. -/
def stOne : ServerState := (postTodos initialState 0 bodyOK).2

/-! ## Helper lemmas -/

theorem insertByCreated_perm (x : Todo) (l : List Todo) :
    (insertByCreated x l).Perm (x :: l) := by
  induction l with
  | nil => exact List.Perm.refl _
  | cons y ys ih =>
    unfold insertByCreated
    by_cases h : y.createdAt ≤ x.createdAt
    · rw [if_pos h]
    · rw [if_neg h]
      exact (ih.cons y).trans (List.Perm.swap x y ys)

theorem sortByCreatedDesc_perm (l : List Todo) : (sortByCreatedDesc l).Perm l := by
  induction l with
  | nil => exact List.Perm.refl _
  | cons x xs ih => exact (insertByCreated_perm x _).trans (ih.cons x)

theorem mem_insertByCreated {z x : Todo} {l : List Todo} :
    z ∈ insertByCreated x l ↔ z = x ∨ z ∈ l := by
  rw [(insertByCreated_perm x l).mem_iff, List.mem_cons]

theorem pairwise_insertByCreated {x : Todo} {l : List Todo}
    (h : l.Pairwise fun a b => b.createdAt ≤ a.createdAt) :
    (insertByCreated x l).Pairwise fun a b => b.createdAt ≤ a.createdAt := by
  induction l with
  | nil => simp [insertByCreated]
  | cons y ys ih =>
    rcases List.pairwise_cons.mp h with ⟨hy, hys⟩
    unfold insertByCreated
    by_cases hle : y.createdAt ≤ x.createdAt
    · rw [if_pos hle]
      refine List.pairwise_cons.mpr ⟨?_, h⟩
      intro z hz
      rcases List.mem_cons.mp hz with rfl | hz
      · exact hle
      · exact le_trans (hy z hz) hle
    · rw [if_neg hle]
      refine List.pairwise_cons.mpr ⟨?_, ih hys⟩
      intro z hz
      rcases mem_insertByCreated.mp hz with rfl | hz
      · exact le_of_not_le hle
      · exact hy z hz

theorem sortByCreatedDesc_sorted (l : List Todo) :
    (sortByCreatedDesc l).Pairwise fun a b => b.createdAt ≤ a.createdAt := by
  induction l with
  | nil => simp [sortByCreatedDesc]
  | cons x xs ih => exact pairwise_insertByCreated ih

theorem searchFilter_eq (o : Option String) (ts : List Todo) :
    searchFilter o ts = ts.filter (searchPred o) := by
  cases o with
  | none => exact ((List.filter_congr fun x _ => rfl).trans (List.filter_true ts)).symm
  | some s =>
    simp only [searchFilter]
    by_cases hs : s = ""
    · rw [if_pos hs]
      exact ((List.filter_congr fun x _ => by simp [searchPred, hs]).trans
        (List.filter_true ts)).symm
    · rw [if_neg hs]
      exact List.filter_congr fun x _ => by simp [searchPred, hs]

theorem categoryFilter_eq (o : Option String) (ts : List Todo) :
    categoryFilter o ts = ts.filter (categoryPred o) := by
  cases o with
  | none => exact ((List.filter_congr fun x _ => rfl).trans (List.filter_true ts)).symm
  | some s =>
    simp only [categoryFilter]
    by_cases hs : s = ""
    · rw [if_pos hs]
      exact ((List.filter_congr fun x _ => by simp [categoryPred, hs]).trans
        (List.filter_true ts)).symm
    · rw [if_neg hs]
      exact List.filter_congr fun x _ => by simp [categoryPred, hs]

theorem priorityFilter_eq (o : Option String) (ts : List Todo) :
    priorityFilter o ts = ts.filter (priorityPred o) := by
  cases o with
  | none => exact ((List.filter_congr fun x _ => rfl).trans (List.filter_true ts)).symm
  | some s =>
    simp only [priorityFilter]
    by_cases hs : s = ""
    · rw [if_pos hs]
      exact ((List.filter_congr fun x _ => by simp [priorityPred, hs]).trans
        (List.filter_true ts)).symm
    · rw [if_neg hs]
      exact List.filter_congr fun x _ => by simp [priorityPred, hs]

theorem completedFilter_eq (o : Option String) (ts : List Todo) :
    completedFilter o ts = ts.filter (completedPred o) := by
  cases o with
  | none => exact ((List.filter_congr fun x _ => rfl).trans (List.filter_true ts)).symm
  | some s => exact List.filter_congr fun x _ => rfl

theorem applyFilters_eq (q : TodoQuery) (ts : List Todo) :
    applyFilters q ts = ts.filter (matchesQuery q) := by
  unfold applyFilters
  rw [searchFilter_eq, categoryFilter_eq, priorityFilter_eq, completedFilter_eq,
      List.filter_filter, List.filter_filter, List.filter_filter]
  refine List.filter_congr ?_
  intro t _
  unfold matchesQuery
  cases searchPred q.search t <;> cases categoryPred q.category t <;>
    cases priorityPred q.priority t <;> cases completedPred q.completed t <;> rfl

theorem applyFilters_empty (ts : List Todo) : applyFilters emptyQuery ts = ts := rfl

theorem getTodoById_replaceFirst {l : List Todo} {id : Nat} {t upd : Todo}
    (hf : getTodoById l id = some t) (hupd : upd.id = id) :
    getTodoById (replaceFirstById id upd l) id = some upd := by
  induction l with
  | nil => simp [getTodoById] at hf
  | cons a as ih =>
    unfold getTodoById at hf ⊢
    unfold replaceFirstById
    by_cases hb : (a.id == id) = true
    · rw [if_pos hb]
      exact List.find?_cons_of_pos _ (by simp [hupd])
    · rw [if_neg hb]
      rw [@List.find?_cons_of_neg _ (fun x => x.id == id) a as hb] at hf
      rw [@List.find?_cons_of_neg _ (fun x => x.id == id) a (replaceFirstById id upd as) hb]
      exact ih hf

theorem perm_removeFirstById {l : List Todo} {id : Nat} {t : Todo}
    (hf : getTodoById l id = some t) : l.Perm (t :: removeFirstById id l) := by
  induction l with
  | nil => simp [getTodoById] at hf
  | cons a as ih =>
    unfold getTodoById at hf
    unfold removeFirstById
    by_cases hb : (a.id == id) = true
    · rw [@List.find?_cons_of_pos _ (fun x => x.id == id) a as hb] at hf
      cases hf
      rw [if_pos hb]
    · rw [@List.find?_cons_of_neg _ (fun x => x.id == id) a as hb] at hf
      rw [if_neg hb]
      exact ((ih hf).cons a).trans (List.Perm.swap t a _)

theorem mem_replaceFirstById {l : List Todo} {id : Nat} {upd x : Todo}
    (hx : x ∈ replaceFirstById id upd l) : x = upd ∨ x ∈ l := by
  induction l with
  | nil => simp [replaceFirstById] at hx
  | cons a as ih =>
    unfold replaceFirstById at hx
    by_cases hb : (a.id == id) = true
    · rw [if_pos hb] at hx
      rcases List.mem_cons.mp hx with rfl | hx
      · exact Or.inl rfl
      · exact Or.inr (List.mem_cons_of_mem a hx)
    · rw [if_neg hb] at hx
      rcases List.mem_cons.mp hx with rfl | hx
      · exact Or.inr (List.mem_cons_self x as)
      · rcases ih hx with h | h
        · exact Or.inl h
        · exact Or.inr (List.mem_cons_of_mem a h)

theorem mem_removeFirstById {l : List Todo} {id : Nat} {x : Todo}
    (hx : x ∈ removeFirstById id l) : x ∈ l := by
  induction l with
  | nil => simp [removeFirstById] at hx
  | cons a as ih =>
    unfold removeFirstById at hx
    by_cases hb : (a.id == id) = true
    · rw [if_pos hb] at hx
      exact List.mem_cons_of_mem a hx
    · rw [if_neg hb] at hx
      rcases List.mem_cons.mp hx with rfl | hx
      · exact List.mem_cons_self x as
      · exact List.mem_cons_of_mem a (ih hx)

theorem xssChars_cons (c : Char) (cs : List Char) :
    xssChars (c :: cs) =
      (if c = '<' then "&lt;".data else if c = '>' then "&gt;".data else [c]) ++ xssChars cs :=
  rfl

theorem xssChars_length_ge (l : List Char) : l.length ≤ (xssChars l).length := by
  induction l with
  | nil => simp [xssChars]
  | cons c cs ih =>
    rw [xssChars_cons]
    by_cases h1 : c = '<'
    · rw [if_pos h1]
      simp only [List.length_append, List.length_cons]
      have h4 : ("&lt;".data).length = 4 := rfl
      omega
    · rw [if_neg h1]
      by_cases h2 : c = '>'
      · rw [if_pos h2]
        simp only [List.length_append, List.length_cons]
        have h4 : ("&gt;".data).length = 4 := rfl
        omega
      · rw [if_neg h2]
        simp only [List.length_append, List.length_cons, List.length_nil]
        omega

theorem xssChars_eq_self_iff (l : List Char) :
    xssChars l = l ↔ ∀ c ∈ l, c ≠ '<' ∧ c ≠ '>' := by
  induction l with
  | nil => simp [xssChars]
  | cons c cs ih =>
    constructor
    · intro h
      by_cases h1 : c = '<'
      · exfalso
        have hlen := congrArg List.length h
        have hle := xssChars_length_ge cs
        have h4 : ("&lt;".data).length = 4 := rfl
        rw [xssChars_cons, if_pos h1] at hlen
        simp only [List.length_append, List.length_cons, h4] at hlen
        omega
      · by_cases h2 : c = '>'
        · exfalso
          have hlen := congrArg List.length h
          have hle := xssChars_length_ge cs
          have h4 : ("&gt;".data).length = 4 := rfl
          rw [xssChars_cons, if_neg h1, if_pos h2] at hlen
          simp only [List.length_append, List.length_cons, h4] at hlen
          omega
        · have htail : xssChars cs = cs := by
            rw [xssChars_cons, if_neg h1, if_neg h2] at h
            exact (List.cons.injEq _ _ _ _ ▸ h).2
          intro x hx
          rcases List.mem_cons.mp hx with rfl | hx
          · exact ⟨h1, h2⟩
          · exact (ih.mp htail) x hx
    · intro h
      have hc := h c (List.mem_cons_self c cs)
      rw [xssChars_cons, if_neg hc.1, if_neg hc.2,
        ih.mpr fun x hx => h x (List.mem_cons_of_mem c hx)]
      rfl

theorem xss_fixed_iff (s : String) : xss s = s ↔ noMarkup s = true := by
  rw [xss, noMarkup, String.ext_iff, List.all_eq_true]
  show xssChars s.data = s.data ↔ _
  rw [xssChars_eq_self_iff]
  constructor
  · intro h x hx
    rcases h x hx with ⟨h1, h2⟩
    simp [h1, h2]
  · intro h x hx
    have := h x hx
    simp only [Bool.and_eq_true, bne_iff_ne] at this
    exact this

theorem mem_todoCategories_ne_empty {c : String} (h : c ∈ todoCategories) : c ≠ "" := by
  simp only [todoCategories, List.mem_cons, List.not_mem_nil, or_false] at h
  rcases h with rfl | rfl | rfl | rfl | rfl <;> decide

theorem validateTask_eq_nil_iff (task : String) :
    validateTask task = [] ↔ task ≠ "" ∧ task.length ≤ 500 := by
  unfold validateTask
  rw [List.append_eq_nil]
  constructor
  · rintro ⟨h1, h2⟩
    constructor
    · intro he
      rw [if_pos he] at h1
      exact List.cons_ne_nil _ _ h1
    · by_contra hl
      rw [if_pos (by omega : 500 < task.length)] at h2
      exact List.cons_ne_nil _ _ h2
  · rintro ⟨h1, h2⟩
    exact ⟨by rw [if_neg h1], by rw [if_neg (by omega : ¬ 500 < task.length)]⟩

theorem validateDescription_eq_nil_iff (o : Option String) :
    validateDescription o = [] ↔ ∀ d, o = some d → d.length ≤ 2000 := by
  cases o with
  | none => simp [validateDescription]
  | some d =>
    simp only [validateDescription, Option.some.injEq]
    constructor
    · intro h e he
      subst he
      by_contra hl
      rw [if_pos (by omega : 2000 < d.length)] at h
      exact List.cons_ne_nil _ _ h
    · intro h
      rw [if_neg (by have := h d rfl; omega : ¬ 2000 < d.length)]

theorem validateCategory_eq_nil_iff (c : String) :
    validateCategory c = [] ↔ c ∈ todoCategories := by
  unfold validateCategory
  rw [List.append_eq_nil]
  constructor
  · rintro ⟨h1, h2⟩
    by_contra hmem
    rw [if_neg hmem] at h2
    exact List.cons_ne_nil _ _ h2
  · intro h
    exact ⟨by rw [if_neg (mem_todoCategories_ne_empty h)], by rw [if_pos h]⟩

theorem validatePriority_eq_nil_iff (o : Option String) :
    validatePriority o = [] ↔ ∀ p, o = some p → p ∈ todoPriorities := by
  cases o with
  | none => simp [validatePriority]
  | some p =>
    simp only [validatePriority, Option.some.injEq]
    constructor
    · intro h e he
      subst he
      by_contra hmem
      rw [if_neg hmem] at h
      exact List.cons_ne_nil _ _ h
    · intro h
      rw [if_pos (h p rfl)]

theorem validateDueDate_eq_nil_iff (o : Option String) :
    validateDueDate o = [] ↔ ∀ s, o = some s → isISO8601Date s = true := by
  cases o with
  | none => simp [validateDueDate]
  | some s =>
    simp only [validateDueDate, Option.some.injEq]
    constructor
    · intro h e he
      subst he
      by_contra hiso
      rw [if_neg hiso] at h
      exact List.cons_ne_nil _ _ h
    · intro h
      rw [if_pos (h s rfl)]

theorem validatePostBody_eq_nil_iff (b : PostBody) :
    validatePostBody b = [] ↔ ValidPostBody b := by
  unfold validatePostBody ValidPostBody
  simp only [List.append_eq_nil, validateTask_eq_nil_iff, validateDescription_eq_nil_iff,
    validateCategory_eq_nil_iff, validatePriority_eq_nil_iff, validateDueDate_eq_nil_iff]
  tauto

theorem toggleTodo_found (st : ServerState) (now : Nat) (idp : Int) (t : Todo)
    (h1 : ¬ idp < 1) (hf : getTodoById st.todos idp.toNat = some t) :
    toggleTodo st now idp =
      (.success (toggledTodo t now),
       { st with todos := replaceFirstById idp.toNat (toggledTodo t now) st.todos,
                 todoCompletedTotal :=
                   if t.completed = CompletedVal.cint 1 then st.todoCompletedTotal
                   else bump st.todoCompletedTotal (priorityLabel t.priority) }) := by
  unfold toggleTodo
  rw [if_neg h1]
  simp only [hf]
  by_cases hc : t.completed = CompletedVal.cint 1
  · simp [hc, toggledTodo]
  · simp [hc, toggledTodo]

theorem toggledTodo_id (t : Todo) (now : Nat) : (toggledTodo t now).id = t.id := by
  unfold toggledTodo
  by_cases hc : t.completed = CompletedVal.cint 1
  · rw [if_pos hc]
  · rw [if_neg hc]

theorem toggledTodo_priority (t : Todo) (now : Nat) :
    (toggledTodo t now).priority = t.priority := by
  unfold toggledTodo
  by_cases hc : t.completed = CompletedVal.cint 1
  · rw [if_pos hc]
  · rw [if_neg hc]

theorem toggledTodo_completed (t : Todo) (now : Nat) :
    (toggledTodo t now).completed
      = (if t.completed = CompletedVal.cint 1 then CompletedVal.cint 0
         else CompletedVal.cint 1) := by
  unfold toggledTodo
  split_ifs <;> rfl

/-! ## Claim theorems -/

/-- C1: the in-flight gauge keyed by (method, path) is incremented once at
request start, but the decrement lives only in the `res.on("finish")`
hook, and the `finish` event does not fire for a client disconnect that
terminates the connection before the response completes.  Evaluated at a
concrete request: after a disconnect the gauge is left at one above its
pre-request value (a leak), while on the normal and handler-error exit
paths it returns to the pre-request value. -/
theorem C1_inflight_leak_on_disconnect :
    (handleRequest zeroMetrics reqTodos Outcome.clientDisconnect compSample).inFlight
        ⟨"GET", "/api/todos"⟩ = 1 ∧
    zeroMetrics.inFlight ⟨"GET", "/api/todos"⟩ = 0 ∧
    (handleRequest zeroMetrics reqTodos (Outcome.completedResponse 200) compSample).inFlight
        ⟨"GET", "/api/todos"⟩ = 0 ∧
    (handleRequest zeroMetrics reqTodos Outcome.handlerError compSample).inFlight
        ⟨"GET", "/api/todos"⟩ = 0 := by
  refine ⟨?_, rfl, ?_, ?_⟩ <;> decide

/-- C6: the list endpoint returns exactly the stored items satisfying
the conjunction of all supplied filters (case-insensitive substring
search over task and description, exact category, exact priority, exact
completion), ordered newest-created-first. -/
theorem C6_list_filter_conjunction (st : ServerState) (q : TodoQuery) :
    (getTodos st q).todos.Perm (st.todos.filter (matchesQuery q)) ∧
    (getTodos st q).todos.Pairwise (fun a b => b.createdAt ≤ a.createdAt) := by
  constructor
  · show (applyFilters q (sortByCreatedDesc st.todos)).Perm _
    rw [applyFilters_eq]
    exact (sortByCreatedDesc_perm st.todos).filter (matchesQuery q)
  · show (applyFilters q (sortByCreatedDesc st.todos)).Pairwise _
    rw [applyFilters_eq]
    exact List.Pairwise.sublist (List.filter_sublist _) (sortByCreatedDesc_sorted st.todos)

/-- C7: on every run of the completion hook the middleware increments
`http_requests_total{method, route, status}` by exactly one, observes the
duration into `http_request_duration_seconds`, adds the CPU-time delta to
`http_request_cpu_seconds_total`, and increments `http_errors_total`
exactly when the status is at least 400; all other label tuples are
untouched because the updates are pointwise. -/
theorem C7_completion_hook_metrics (m : HttpMetrics) (r : ReqInfo) (c : Completion) :
    (onFinish m r c).requestsTotal
      = bump3 m.requestsTotal ⟨r.method, r.routePattern.getD r.path, c.status⟩ ∧
    (onFinish m r c).durationObs
      = obsAt3 m.durationObs ⟨r.method, r.routePattern.getD r.path, c.status⟩
          ((c.endMs - c.startMs) / 1000) ∧
    (onFinish m r c).cpuSecondsTotal
      = addAt3 m.cpuSecondsTotal ⟨r.method, r.routePattern.getD r.path, c.status⟩
          ((c.cpuUserMicros + c.cpuSystemMicros) / 1000000) ∧
    (onFinish m r c).errorsTotal
      = (if 400 ≤ c.status then
          bump3 m.errorsTotal ⟨r.method, r.routePattern.getD r.path, c.status⟩
         else m.errorsTotal) := by
  refine ⟨?_, ?_, ?_, ?_⟩ <;>
    · simp only [onFinish]
      split_ifs <;> rfl

/-- C8: every log call produces a record carrying the timestamp, level
and message, merges the caller's fields, annotates it with the active
span's trace/span identifiers exactly when a span is active, and returns
normally to the caller even when emission fails, because winston surfaces
emission failures as events rather than exceptions. -/
theorem C8_structured_log_contract (lvl : LogLevel) (now : Nat) (span : Option SpanContext)
    (message : String) (meta : List (String × String)) (emitFails : Bool) :
    logCall lvl now span message meta emitFails
      = .returned (loggerEmit emitFails
          { timestamp := now, level := levelName lvl, message := message,
            fields := withTraceContext span meta }) ∧
    withTraceContext none meta = meta ∧
    (∀ s, withTraceContext (some s) meta
        = meta ++ [("trace_id", s.traceId), ("span_id", s.spanId)]) ∧
    (∀ e, logCall lvl now span message meta emitFails ≠ CallOutcome.raised e) := by
  refine ⟨rfl, rfl, fun s => rfl, fun e => ?_⟩
  unfold logCall loggerEmit
  split_ifs <;> simp

/-- C2 counterexample: a POST body whose category is empty violates one
field but receives two error messages for it — the non-empty check fails
with the library default message and the enum check fails with the custom
one — so a 400 response does not carry exactly one message per violated
field. -/
theorem C2_counterexample_two_messages_per_field :
    (postTodos initialState 0 bodyBadCategory).1 =
      PostResponse.invalid [⟨"category", "Invalid value"⟩, ⟨"category", "Invalid category"⟩] ∧
    ((validatePostBody (sanitizePostBody bodyBadCategory)).filter
        (fun e => e.path == "category")).length = 2 := by
  refine ⟨?_, ?_⟩ <;> decide

/-- C2 (amended): a POST whose sanitized body passes all validators gets
a success response with the built entry appended to the store; otherwise
the response is a 400 carrying one message per failed validator (at
least one per violated field) and the state is unchanged. -/
theorem C2_post_validation (st : ServerState) (now : Nat) (raw : PostBody) :
    (ValidPostBody (sanitizePostBody raw) →
      (postTodos st now raw).1
          = .success (mkEntry st.nextTodoId now (sanitizePostBody raw)) ∧
      postStatus (postTodos st now raw).1 = 200 ∧
      (postTodos st now raw).2.todos
          = st.todos ++ [mkEntry st.nextTodoId now (sanitizePostBody raw)]) ∧
    (¬ ValidPostBody (sanitizePostBody raw) →
      (postTodos st now raw).1 = .invalid (validatePostBody (sanitizePostBody raw)) ∧
      postStatus (postTodos st now raw).1 = 400 ∧
      validatePostBody (sanitizePostBody raw) ≠ [] ∧
      (postTodos st now raw).2 = st) := by
  constructor
  · intro hv
    have he : validatePostBody (sanitizePostBody raw) = [] :=
      (validatePostBody_eq_nil_iff _).mpr hv
    refine ⟨?_, ?_, ?_⟩ <;> simp [postTodos, he, postStatus]
  · intro hv
    have he : validatePostBody (sanitizePostBody raw) ≠ [] :=
      fun h => hv ((validatePostBody_eq_nil_iff _).mp h)
    refine ⟨?_, ?_, he, ?_⟩ <;> simp [postTodos, he, postStatus]

/-- C2 witness: the valid sample body is created with a success status
and the empty-category body is rejected with status 400. -/
theorem C2_post_validation_witness :
    postStatus (postTodos initialState 0 bodyOK).1 = 200 ∧
    postStatus (postTodos initialState 0 bodyBadCategory).1 = 400 :=
  ⟨((C2_post_validation initialState 0 bodyOK).1 (by decide)).2.1,
   ((C2_post_validation initialState 0 bodyBadCategory).2 (by decide)).2.1⟩

/-- C10 counterexample: a valid body submitted with an empty (but
present) description stores `null` for the description, not the
sanitizer's output `xss("") = ""`, so the stored description is not the
XSS transform of the submitted value. -/
theorem C10_counterexample_empty_description :
    (postTodos initialState 0 bodyEmptyDesc).1
      = PostResponse.success (mkEntry 1 0 (sanitizePostBody bodyEmptyDesc)) ∧
    (mkEntry 1 0 (sanitizePostBody bodyEmptyDesc)).description = none ∧
    (bodyEmptyDesc.description.map xss) = some "" ∧
    (mkEntry 1 0 (sanitizePostBody bodyEmptyDesc)).description
      ≠ bodyEmptyDesc.description.map xss := by
  refine ⟨?_, ?_, ?_, ?_⟩ <;> decide

/-- C10 (amended): on every successful POST the stored task and category
are the XSS transform of the trimmed submitted values, the stored
description is the XSS transform of the trimmed submitted description
when that is present and non-empty and `null` otherwise, and the stored
task/category equal the trimmed submitted values exactly when those are
fixed points of the sanitizer, i.e. contain no tag delimiter. -/
theorem C10_xss_sanitization (st : ServerState) (now : Nat) (raw : PostBody)
    (hv : ValidPostBody (sanitizePostBody raw)) :
    (postTodos st now raw).1
        = .success (mkEntry st.nextTodoId now (sanitizePostBody raw)) ∧
    (mkEntry st.nextTodoId now (sanitizePostBody raw)).task = xss (jsTrim raw.task) ∧
    (mkEntry st.nextTodoId now (sanitizePostBody raw)).category = xss (jsTrim raw.category) ∧
    (mkEntry st.nextTodoId now (sanitizePostBody raw)).description
        = (match raw.description.map jsTrim with
           | some d => if d = "" then none else some (xss d)
           | none => none) ∧
    ((mkEntry st.nextTodoId now (sanitizePostBody raw)).task = jsTrim raw.task
        ↔ noMarkup (jsTrim raw.task) = true) ∧
    ((mkEntry st.nextTodoId now (sanitizePostBody raw)).category = jsTrim raw.category
        ↔ noMarkup (jsTrim raw.category) = true) := by
  have he : validatePostBody (sanitizePostBody raw) = [] :=
    (validatePostBody_eq_nil_iff _).mpr hv
  refine ⟨by simp [postTodos, he], rfl, rfl, rfl, ?_, ?_⟩
  · show xss (jsTrim raw.task) = jsTrim raw.task ↔ _
    exact xss_fixed_iff (jsTrim raw.task)
  · show xss (jsTrim raw.category) = jsTrim raw.category ↔ _
    exact xss_fixed_iff (jsTrim raw.category)

/-- C10 witness: creating the sample body stores exactly the submitted
markup-free task. -/
theorem C10_xss_sanitization_witness :
    (mkEntry 1 0 (sanitizePostBody bodyOK)).task = jsTrim bodyOK.task :=
  ((C10_xss_sanitization initialState 0 bodyOK (by decide)).2.2.2.2.1).mpr (by decide)

/-- C3 counterexample: after creating the valid sample body in a fresh
store, the unique matching entry returned by the list endpoint carries
the integer 0 in its `completed` field, which is not the boolean `false`
the claim demands. -/
theorem C3_counterexample_completed_not_boolean :
    ((getTodos (postTodos initialState 0 bodyOK).2 emptyQuery).todos.filter
        (fun t => t.id == 1)).map Todo.completed = [CompletedVal.cint 0] ∧
    CompletedVal.cint 0 ≠ CompletedVal.cbool false := by
  refine ⟨?_, ?_⟩ <;> decide

/-- C3 (amended): from any well-formed store, creating a valid body and
then listing without filters returns exactly one entry with the new id;
that entry stores the XSS-sanitized trimmed fields, the submitted
priority (defaulting to "medium"), the date-only due date, and the
integer 0 — the falsy value standing for not-completed — in
`completed`. -/
theorem C3_create_then_list_roundtrip (st : ServerState) (now : Nat) (raw : PostBody)
    (hwf : StoreWF st) (hv : ValidPostBody (sanitizePostBody raw)) :
    (postTodos st now raw).1
        = .success (mkEntry st.nextTodoId now (sanitizePostBody raw)) ∧
    (getTodos (postTodos st now raw).2 emptyQuery).todos.filter
        (fun t => t.id == st.nextTodoId)
      = [mkEntry st.nextTodoId now (sanitizePostBody raw)] ∧
    (mkEntry st.nextTodoId now (sanitizePostBody raw)).completed = CompletedVal.cint 0 ∧
    (mkEntry st.nextTodoId now (sanitizePostBody raw)).priority
      = (sanitizePostBody raw).priority.getD "medium" ∧
    (mkEntry st.nextTodoId now (sanitizePostBody raw)).dueDate = getDateOnly raw.dueDate := by
  have he : validatePostBody (sanitizePostBody raw) = [] :=
    (validatePostBody_eq_nil_iff _).mpr hv
  have hpost : (postTodos st now raw).2.todos
      = st.todos ++ [mkEntry st.nextTodoId now (sanitizePostBody raw)] := by
    simp [postTodos, he]
  refine ⟨by simp [postTodos, he], ?_, rfl, rfl, rfl⟩
  rw [show (getTodos (postTodos st now raw).2 emptyQuery).todos
        = sortByCreatedDesc (postTodos st now raw).2.todos from
      applyFilters_empty _]
  rw [hpost]
  have hfil : (st.todos ++ [mkEntry st.nextTodoId now (sanitizePostBody raw)]).filter
      (fun t => t.id == st.nextTodoId)
      = [mkEntry st.nextTodoId now (sanitizePostBody raw)] := by
    rw [List.filter_append]
    have h1 : st.todos.filter (fun t => t.id == st.nextTodoId) = [] := by
      rw [List.filter_eq_nil_iff]
      intro a ha
      simp only [beq_iff_eq]
      exact Nat.ne_of_lt (hwf a ha)
    have h2 : [mkEntry st.nextTodoId now (sanitizePostBody raw)].filter
        (fun t => t.id == st.nextTodoId)
        = [mkEntry st.nextTodoId now (sanitizePostBody raw)] := by
      simp [mkEntry]
    rw [h1, h2, List.nil_append]
  have hperm := (sortByCreatedDesc_perm
      (st.todos ++ [mkEntry st.nextTodoId now (sanitizePostBody raw)])).filter
      (fun t => t.id == st.nextTodoId)
  rw [hfil] at hperm
  exact List.perm_singleton.mp hperm

/-- C3 witness: the sample creation followed by an unfiltered list
returns exactly the created entry. -/
theorem C3_create_then_list_roundtrip_witness :
    (getTodos (postTodos initialState 0 bodyOK).2 emptyQuery).todos.filter
        (fun t => t.id == 1)
      = [mkEntry 1 0 (sanitizePostBody bodyOK)] :=
  (C3_create_then_list_roundtrip initialState 0 bodyOK (by decide) (by decide)).2.1

/-- C4: toggling an existing todo twice restores its original completed
value, and the completed counter at the item's priority label gains
exactly one across the pair: the increment happens only on the
incomplete-to-complete transition, never on the reverse one. -/
theorem C4_double_toggle (st : ServerState) (idp : Int) (t : Todo) (n1 n2 : Nat)
    (h1 : ¬ idp < 1)
    (hf : getTodoById st.todos idp.toNat = some t)
    (hc : t.completed = CompletedVal.cint 0 ∨ t.completed = CompletedVal.cint 1) :
    ((getTodoById (toggleTodo (toggleTodo st n1 idp).2 n2 idp).2.todos idp.toNat).map
        Todo.completed) = some t.completed ∧
    (toggleTodo (toggleTodo st n1 idp).2 n2 idp).2.todoCompletedTotal
      = bump st.todoCompletedTotal (priorityLabel t.priority) ∧
    (t.completed = CompletedVal.cint 0 →
      (toggleTodo st n1 idp).2.todoCompletedTotal
        = bump st.todoCompletedTotal (priorityLabel t.priority) ∧
      (toggleTodo (toggleTodo st n1 idp).2 n2 idp).2.todoCompletedTotal
        = (toggleTodo st n1 idp).2.todoCompletedTotal) ∧
    (t.completed = CompletedVal.cint 1 →
      (toggleTodo st n1 idp).2.todoCompletedTotal = st.todoCompletedTotal ∧
      (toggleTodo (toggleTodo st n1 idp).2 n2 idp).2.todoCompletedTotal
        = bump (toggleTodo st n1 idp).2.todoCompletedTotal (priorityLabel t.priority)) := by
  have htid : t.id = idp.toNat := by
    have := List.find?_some hf
    simpa [beq_iff_eq] using this
  have hid1 : (toggledTodo t n1).id = idp.toNat := by rw [toggledTodo_id, htid]
  have h1st := toggleTodo_found st n1 idp t h1 hf
  have hf2 : getTodoById (toggleTodo st n1 idp).2.todos idp.toNat
      = some (toggledTodo t n1) := by
    rw [h1st]
    exact getTodoById_replaceFirst hf hid1
  have h2nd := toggleTodo_found (toggleTodo st n1 idp).2 n2 idp (toggledTodo t n1) h1 hf2
  have hf3 : getTodoById (toggleTodo (toggleTodo st n1 idp).2 n2 idp).2.todos idp.toNat
      = some (toggledTodo (toggledTodo t n1) n2) := by
    rw [h2nd]
    exact getTodoById_replaceFirst hf2 (by rw [toggledTodo_id, toggledTodo_id, htid])
  rcases hc with hc | hc
  · have hcne : ¬ t.completed = CompletedVal.cint 1 := by rw [hc]; decide
    have e1 : (toggledTodo t n1).completed = CompletedVal.cint 1 := by
      rw [toggledTodo_completed, if_neg hcne]
    have e2 : (toggledTodo (toggledTodo t n1) n2).completed = CompletedVal.cint 0 := by
      rw [toggledTodo_completed, if_pos e1]
    have hcnt1 : (toggleTodo st n1 idp).2.todoCompletedTotal
        = bump st.todoCompletedTotal (priorityLabel t.priority) := by
      rw [h1st]
      exact if_neg hcne
    have hcnt2 : (toggleTodo (toggleTodo st n1 idp).2 n2 idp).2.todoCompletedTotal
        = (toggleTodo st n1 idp).2.todoCompletedTotal := by
      rw [h2nd]
      exact if_pos e1
    refine ⟨?_, by rw [hcnt2, hcnt1], fun _ => ⟨hcnt1, hcnt2⟩, fun hcc => absurd hcc hcne⟩
    rw [hf3]
    simp [e2, hc]
  · have he1 : (toggledTodo t n1).completed = CompletedVal.cint 0 := by
      rw [toggledTodo_completed, if_pos hc]
    have he1ne : ¬ (toggledTodo t n1).completed = CompletedVal.cint 1 := by
      rw [he1]; decide
    have e2 : (toggledTodo (toggledTodo t n1) n2).completed = CompletedVal.cint 1 := by
      rw [toggledTodo_completed, if_neg he1ne]
    have hcnt1 : (toggleTodo st n1 idp).2.todoCompletedTotal = st.todoCompletedTotal := by
      rw [h1st]
      exact if_pos hc
    have hcnt2 : (toggleTodo (toggleTodo st n1 idp).2 n2 idp).2.todoCompletedTotal
        = bump (toggleTodo st n1 idp).2.todoCompletedTotal
            (priorityLabel (toggledTodo t n1).priority) := by
      rw [h2nd]
      exact if_neg he1ne
    refine ⟨?_, ?_, fun hcc => by simp [hc] at hcc,
      fun _ => ⟨hcnt1, by rw [hcnt2, toggledTodo_priority]⟩⟩
    · rw [hf3]
      simp [e2, hc]
    · rw [hcnt2, toggledTodo_priority, hcnt1]

/-- C4 witness: in the one-entry store the double toggle of id 1 restores
`completed = 0` and leaves the completed counter at "high" equal to 1. -/
theorem C4_double_toggle_witness :
    ((getTodoById (toggleTodo (toggleTodo stOne 5 1).2 6 1).2.todos (1 : Int).toNat).map
        Todo.completed) = some (CompletedVal.cint 0) ∧
    (toggleTodo (toggleTodo stOne 5 1).2 6 1).2.todoCompletedTotal "high" = 1 := by
  have h := C4_double_toggle stOne 1 (mkEntry 1 0 (sanitizePostBody bodyOK)) 5 6
    (by decide) (by decide) (Or.inl (by decide))
  refine ⟨h.1, ?_⟩
  rw [h.2.1]
  decide

/-- C5 counterexample: id 0 is absent from every store, yet the DELETE
handler answers with status 400 from parameter validation, not with the
claimed 404 (the deleted counter is still unchanged). -/
theorem C5_counterexample_id_zero :
    deleteStatus (deleteTodo initialState 0).1 = 400 ∧
    deleteStatus (deleteTodo initialState 0).1 ≠ 404 ∧
    (deleteTodo initialState 0).2.todoDeletedTotal = initialState.todoDeletedTotal := by
  refine ⟨?_, ?_, ?_⟩ <;> decide

/-- C5 (amended): for ids accepted by the `isInt({min:1})` parameter
check, an id absent from the store yields a 404 and leaves the store and
the deleted counter unchanged, while a present id is deleted: the
response is success, the deleted counter gains one, and the old store is
a permutation of the removed item together with the new store (ids below
1 are instead rejected with 400 by validation). -/
theorem C5_delete_semantics (st : ServerState) (idp : Int) (h1 : ¬ idp < 1) :
    ((∀ t ∈ st.todos, t.id ≠ idp.toNat) →
      deleteTodo st idp = (.notFound, st) ∧
      deleteStatus (deleteTodo st idp).1 = 404) ∧
    (∀ t, getTodoById st.todos idp.toNat = some t →
      (deleteTodo st idp).1 = .success ∧
      (deleteTodo st idp).2.todoDeletedTotal = st.todoDeletedTotal + 1 ∧
      st.todos.Perm (t :: (deleteTodo st idp).2.todos)) := by
  constructor
  · intro hall
    have hany : st.todos.any (fun x => x.id == idp.toNat) = false := by
      rw [List.any_eq_false]
      intro x hx
      simp only [beq_iff_eq]
      exact hall x hx
    have hres : deleteTodo st idp = (.notFound, st) := by
      unfold deleteTodo
      rw [if_neg h1]
      simp [hany]
    exact ⟨hres, by rw [hres]; rfl⟩
  · intro t hf
    have hf2 : List.find? (fun x => x.id == idp.toNat) st.todos = some t := hf
    have hany : st.todos.any (fun x => x.id == idp.toNat) = true :=
      List.any_eq_true.mpr ⟨t, List.mem_of_find?_eq_some hf2,
        @List.find?_some _ (fun x => x.id == idp.toNat) t st.todos hf2⟩
    have hres : deleteTodo st idp =
        (.success, { st with todos := removeFirstById idp.toNat st.todos,
                             todoDeletedTotal := st.todoDeletedTotal + 1 }) := by
      unfold deleteTodo
      rw [if_neg h1]
      simp [hany]
    refine ⟨by rw [hres], by rw [hres], ?_⟩
    rw [hres]
    exact perm_removeFirstById hf

/-- C5 witness: in the one-entry store, deleting the absent id 2 gives
404 and deleting the present id 1 bumps the deleted counter to one. -/
theorem C5_delete_semantics_witness :
    deleteStatus (deleteTodo stOne 2).1 = 404 ∧
    (deleteTodo stOne 1).2.todoDeletedTotal = 1 :=
  ⟨((C5_delete_semantics stOne 2 (by decide)).1 (by decide)).2,
   ((C5_delete_semantics stOne 1 (by decide)).2
      (mkEntry 1 0 (sanitizePostBody bodyOK)) (by decide)).2.1⟩

/-- C9: every mutation keeps each stored `completed` field equal to the
integer 0 or 1 (never a boolean), every todo returned by the list
endpoint satisfies the same invariant, creation stores the integer 0,
and toggling maps 1 to 0 and anything else (hence 0, under the
invariant) to 1. -/
theorem C9_completed_integer_invariant (st : ServerState) (now : Nat) (raw : PostBody)
    (idp : Int) (q : TodoQuery) (hinv : CompletedWF st) :
    CompletedWF (postTodos st now raw).2 ∧
    CompletedWF (toggleTodo st now idp).2 ∧
    CompletedWF (deleteTodo st idp).2 ∧
    (∀ t ∈ (getTodos st q).todos,
      t.completed = CompletedVal.cint 0 ∨ t.completed = CompletedVal.cint 1) ∧
    (∀ e, (postTodos st now raw).1 = .success e → e.completed = CompletedVal.cint 0) ∧
    (∀ u t, (toggleTodo st now idp).1 = .success u →
      getTodoById st.todos idp.toNat = some t →
      u.completed = (if t.completed = CompletedVal.cint 1
        then CompletedVal.cint 0 else CompletedVal.cint 1)) := by
  refine ⟨?_, ?_, ?_, ?_, ?_, ?_⟩
  · by_cases he : validatePostBody (sanitizePostBody raw) = []
    · have hst : (postTodos st now raw).2.todos
          = st.todos ++ [mkEntry st.nextTodoId now (sanitizePostBody raw)] := by
        simp [postTodos, he]
      intro x hx
      rw [hst] at hx
      rcases List.mem_append.mp hx with hx | hx
      · exact hinv x hx
      · rw [List.mem_singleton.mp hx]
        exact Or.inl rfl
    · have hst : (postTodos st now raw).2 = st := by simp [postTodos, he]
      rw [hst]
      exact hinv
  · by_cases h1 : idp < 1
    · have hst : (toggleTodo st now idp).2 = st := by
        unfold toggleTodo
        rw [if_pos h1]
      rw [hst]
      exact hinv
    · cases hfind : getTodoById st.todos idp.toNat with
      | none =>
        have hst : (toggleTodo st now idp).2 = st := by
          unfold toggleTodo
          rw [if_neg h1]
          simp only [hfind]
        rw [hst]
        exact hinv
      | some todo =>
        rw [toggleTodo_found st now idp todo h1 hfind]
        intro x hx
        rcases mem_replaceFirstById hx with rfl | hx
        · rw [toggledTodo_completed]
          by_cases hcc : todo.completed = CompletedVal.cint 1
          · rw [if_pos hcc]
            exact Or.inl rfl
          · rw [if_neg hcc]
            exact Or.inr rfl
        · exact hinv x hx
  · by_cases h1 : idp < 1
    · have hst : (deleteTodo st idp).2 = st := by
        unfold deleteTodo
        rw [if_pos h1]
      rw [hst]
      exact hinv
    · by_cases hany : st.todos.any (fun x => x.id == idp.toNat) = true
      · have hst : (deleteTodo st idp).2.todos = removeFirstById idp.toNat st.todos := by
          unfold deleteTodo
          rw [if_neg h1]
          simp [hany]
        intro x hx
        rw [hst] at hx
        exact hinv x (mem_removeFirstById hx)
      · have hst : (deleteTodo st idp).2 = st := by
          unfold deleteTodo
          rw [if_neg h1]
          simp [hany]
        rw [hst]
        exact hinv
  · intro t ht
    have ht2 : t ∈ applyFilters q (sortByCreatedDesc st.todos) := ht
    rw [applyFilters_eq] at ht2
    exact hinv t ((sortByCreatedDesc_perm st.todos).mem_iff.mp (List.mem_filter.mp ht2).1)
  · intro e hsucc
    by_cases he : validatePostBody (sanitizePostBody raw) = []
    · have hres : (postTodos st now raw).1
          = .success (mkEntry st.nextTodoId now (sanitizePostBody raw)) := by
        simp [postTodos, he]
      rw [hres] at hsucc
      cases hsucc
      rfl
    · have hres : (postTodos st now raw).1
          = .invalid (validatePostBody (sanitizePostBody raw)) := by
        simp [postTodos, he]
      rw [hres] at hsucc
      cases hsucc
  · intro u t hsucc hfind
    by_cases h1 : idp < 1
    · unfold toggleTodo at hsucc
      rw [if_pos h1] at hsucc
      cases hsucc
    · rw [toggleTodo_found st now idp t h1 hfind] at hsucc
      cases hsucc
      exact toggledTodo_completed t now

/-- C9 witness: the invariant holds after toggling in the one-entry
store. -/
theorem C9_completed_integer_invariant_witness :
    CompletedWF (toggleTodo stOne 5 1).2 :=
  (C9_completed_integer_invariant stOne 5 bodyOK 1 emptyQuery (by decide)).2.1

end ObsTodo

